import Mathlib

/-!
Shallow embedding of the memory-bounded insertion buffer controller
`SSMemSegment` (src/core/src/db/insert/SSMemSegment.cpp) of the milvus
vector-data engine, together with theorems checking the natural-language
specification against it.

Modelling conventions:
* `size_t` values are modelled as `Nat`; the one place where a signed
  `int64_t` is multiplied into a `size_t` (the record size in `IsFull`)
  goes through an explicit conversion `sizeT` that reduces modulo `2 ^ 64`.
* `size_t` subtraction `MAX_TABLE_FILE_MEM - current_mem_` in `GetMemLeft`
  is modelled as truncated `Nat` subtraction; the two agree on the domain
  `current_mem_ ≤ MAX_TABLE_FILE_MEM`, which is the invariant proved below,
  and all theorems about states carry that bound as a hypothesis.
* Fallible calls return `Option`; a null-pointer dereference is modelled as
  `Option.none` (a crash), distinct from returning a value.
* The constants `MAX_TABLE_FILE_MEM` and `FLOAT_TYPE_SIZE` live in
  db/Constants.h, which is not part of the sources here; the memory ceiling
  is therefore taken as an explicit parameter `maxMem` of every operation,
  and `FLOAT_TYPE_SIZE` is modelled from the spec (float size = 4 bytes).
-/

namespace Milvus

/-- Status value returned by the engine operations: `ok`, or an error wrapping
a message (the numeric error code does not matter to any claim). -/
inductive Status where
  | ok : Status
  | error : String → Status
deriving DecidableEq, Repr

/-- Modelled from the spec: a schema field as handed out by the snapshot
subsystem (not under src/); it carries a json parameter map, modelled as an
association list from parameter name to integer value. -/
structure Field where
  params : List (String × Int)
deriving DecidableEq, Repr

/-- Modelled from the spec: a point-in-time snapshot of collection metadata
(the snapshot subsystem is not under src/); it resolves field names to
fields. -/
structure Snapshot where
  fields : List (String × Field)
deriving DecidableEq, Repr

/-- Modelled from the spec: `Snapshot.GetField(field_name) -> Field | NotFound`. -/
def Snapshot.GetField (ss : Snapshot) (name : String) : Option Field :=
  (ss.fields.find? (fun p => decide (p.1 = name))).map (fun p => p.2)

/-- Lookup in a json parameter map (`params.find(key)` in the source). -/
def lookupParam (ps : List (String × Int)) (key : String) : Option Int :=
  (ps.find? (fun p => decide (p.1 = key))).map (fun p => p.2)

/-- Conversion of a signed `int64_t` value to `size_t` (unsigned, 64-bit):
reduce modulo `2 ^ 64` and read off the nonnegative representative. -/
def sizeT (i : Int) : Nat := (i % (2 ^ 64 : Int)).toNat

/-- Modelled from the spec: `FLOAT_TYPE_SIZE` from db/Constants.h (not under
src/); the spec fixes float size = 4 bytes. -/
def FLOAT_TYPE_SIZE : Int := 4

/-- `SSMemSegment::GetDimension` (SSMemSegment.cpp lines 69-91), relative to
the ambient snapshot for this collection (`none` = `GetSnapshot` failed).
If the snapshot is unavailable the function returns the sentinel `0`.
Otherwise it calls `ss->GetField("vector")` and immediately dereferences the
result (`field->GetParams()`) without a null check, so a missing vector
field is a crash, modelled as `Option.none`. If the parameter map lacks a
`dimension` entry it returns the sentinel `0`; otherwise the entry. -/
def GetDimension (snap : Option Snapshot) : Option Int :=
  match snap with
  | none => some 0
  | some ss =>
    match ss.GetField "vector" with
    | none => none
    | some field =>
      match lookupParam field.params "dimension" with
      | none => some 0
      | some d => some d

/-- Modelled from the spec: the record source capability (`SSVectorSource`,
not under src/). `singleVectorSize` and `singleEntitySize` compute the
memory footprint of one record given a dimensionality; `pushCount n` is the
actual number of records the source pushes into the writer when asked for
up to `n` (the spec says it may be fewer, e.g. when the batch is smaller);
`addStatus` is the status the push reports. -/
structure SSVectorSource where
  singleVectorSize : Int → Nat
  singleEntitySize : Int → Nat
  pushCount : Nat → Nat
  addStatus : Status

/-- Modelled from the spec: the canonical record source holding a batch of
`batch` records admits `min n batch` records when asked for up to `n`. -/
def SSVectorSource.ofBatch (svs ses : Int → Nat) (batch : Nat) : SSVectorSource :=
  ⟨svs, ses, fun n => min n batch, Status.ok⟩

/-- State of one `SSMemSegment` buffer controller: the memory accounting
counter `current_mem_` and the buffered identifier column
(`segment_ptr->vectors_ptr_` uids) that the Delete overloads scan. -/
structure SSMemSegment where
  current_mem : Nat
  uids : List Int
deriving DecidableEq, Repr

/-- Constructor state: `current_mem_ = 0` (SSMemSegment.cpp line 34) and an
empty buffer. -/
def SSMemSegment.init : SSMemSegment := ⟨0, []⟩

/-- `SSMemSegment::GetCurrentMem` (lines 197-200). -/
def SSMemSegment.GetCurrentMem (s : SSMemSegment) : Nat := s.current_mem

/-- `SSMemSegment::GetMemLeft` (lines 202-205): `MAX_TABLE_FILE_MEM -
current_mem_` in `size_t` arithmetic; truncated `Nat` subtraction agrees
with it whenever `current_mem ≤ maxMem`. -/
def SSMemSegment.GetMemLeft (maxMem : Nat) (s : SSMemSegment) : Nat :=
  maxMem - s.current_mem

/-- `SSMemSegment::Add` (lines 93-117). `std::ceil(mem_left /
single_vector_mem_size)` divides two `size_t` values, so the division is
integer (floor) division and the `ceil` is the identity on its result.
The quota is evaluated only when `mem_left ≥ single_vector_mem_size`, and a
positive-size source never divides by zero there. -/
def SSMemSegment.Add (maxMem : Nat) (snap : Option Snapshot)
    (source : SSVectorSource) (s : SSMemSegment) : Option (Status × SSMemSegment) :=
  match GetDimension snap with
  | none => none
  | some dimension =>
    if dimension ≤ 0 then
      some (Status.error "Not able to create collection file", s)
    else
      let single_vector_mem_size := source.singleVectorSize dimension
      let mem_left := SSMemSegment.GetMemLeft maxMem s
      if single_vector_mem_size ≤ mem_left then
        let num_vectors_to_add := mem_left / single_vector_mem_size
        let num_vectors_added := source.pushCount num_vectors_to_add
        match source.addStatus with
        | Status.ok =>
            some (Status.ok,
              ⟨s.current_mem + num_vectors_added * single_vector_mem_size, s.uids⟩)
        | Status.error m => some (Status.error m, s)
      else
        some (Status.ok, s)

/-- `SSMemSegment::AddEntities` (lines 119-143): same shape as `Add` with
the full-entity record size. -/
def SSMemSegment.AddEntities (maxMem : Nat) (snap : Option Snapshot)
    (source : SSVectorSource) (s : SSMemSegment) : Option (Status × SSMemSegment) :=
  match GetDimension snap with
  | none => none
  | some dimension =>
    if dimension ≤ 0 then
      some (Status.error "Not able to create collection file", s)
    else
      let single_entity_mem_size := source.singleEntitySize dimension
      let mem_left := SSMemSegment.GetMemLeft maxMem s
      if single_entity_mem_size ≤ mem_left then
        let num_entities_to_add := mem_left / single_entity_mem_size
        let num_entities_added := source.pushCount num_entities_to_add
        match source.addStatus with
        | Status.ok =>
            some (Status.ok,
              ⟨s.current_mem + num_entities_added * single_entity_mem_size, s.uids⟩)
        | Status.error m => some (Status.error m, s)
      else
        some (Status.ok, s)

/-- `SSMemSegment::IsFull` (lines 207-211): `single_vector_mem_size` is the
`int64_t` product `GetDimension() * FLOAT_TYPE_SIZE` converted to `size_t`,
compared against `GetMemLeft()`. A crash inside `GetDimension` propagates. -/
def SSMemSegment.IsFull (maxMem : Nat) (snap : Option Snapshot)
    (s : SSMemSegment) : Option Bool :=
  match GetDimension snap with
  | none => none
  | some d =>
    some (decide (SSMemSegment.GetMemLeft maxMem s < sizeT (d * FLOAT_TYPE_SIZE)))

/-- `SSMemSegment::Delete(segment::doc_id_t)` (lines 145-158): find the
first occurrence of the id in the uid column and erase that physical slot;
no-op when absent; always `OK`. -/
def SSMemSegment.DeleteOne (doc_id : Int) (s : SSMemSegment) : Status × SSMemSegment :=
  match s.uids.findIdx? (fun u => decide (u = doc_id)) with
  | some offset => (Status.ok, ⟨s.current_mem, s.uids.eraseIdx offset⟩)
  | none => (Status.ok, s)

/-- The scan loop of `SSMemSegment::Delete(const std::vector<doc_id_t>&)`
(lines 175-182): iterate over the pre-scan copy `uids` of the identifier
column with index `i` and a `deleted` counter, erasing slot `i - deleted`
of the live buffer `buf` whenever `uids[i]` is in the sorted copy `temp`
(`std::binary_search` on the sorted `temp` decides membership). -/
def deleteLoop (temp : List Int) : List Int → Nat → Nat → List Int → List Int
  | [], _, _, buf => buf
  | u :: rest, i, deleted, buf =>
    if u ∈ temp then
      deleteLoop temp rest (i + 1) (deleted + 1) (buf.eraseIdx (i - deleted))
    else
      deleteLoop temp rest (i + 1) deleted buf

/-- `SSMemSegment::Delete(const std::vector<doc_id_t>&)` (lines 160-195):
copy the caller ids into `temp` (memcpy), sort the copy, take a copy `uids`
of the buffered identifier column, then run the scan loop against the live
buffer (initially equal to the copy). Always `OK`. -/
def SSMemSegment.DeleteBatch (doc_ids : List Int) (s : SSMemSegment) : Status × SSMemSegment :=
  let temp := doc_ids.insertionSort (· ≤ ·)
  let uids := s.uids
  (Status.ok, ⟨s.current_mem, deleteLoop temp uids 0 0 s.uids⟩)

/-- Call frame of the batch delete: the caller-owned id vector is passed by
const reference and the body writes only to the local copy `temp` (memcpy +
`std::sort`), so the frame returns the caller ids unmodified next to the
updated controller state. -/
structure DeleteCallFrame where
  caller_ids : List Int
  seg : SSMemSegment
deriving DecidableEq, Repr

/-- Running `Delete(const std::vector<doc_id_t>&)` on a call frame. -/
def runDeleteBatch (c : DeleteCallFrame) : Status × DeleteCallFrame :=
  ((SSMemSegment.DeleteBatch c.caller_ids c.seg).1,
    ⟨c.caller_ids, (SSMemSegment.DeleteBatch c.caller_ids c.seg).2⟩)

/-- Outcomes of the external calls `SSMemSegment::Serialize` makes, supplied
as an environment: the phase-one `CommitNewSegmentFile` status, the segment
writer serialization status, the writer counters, and the `Push` status.
Modelled from the spec: `CommitNewSegmentFile(descriptor) ->
SegmentFileHandle | Error`, so the `seg_file` handle exists exactly when the
phase-one status is `ok` and stays null on `Error`. -/
structure SerializeEnv where
  commitNewSegmentFileStatus : Status
  writerSerializeStatus : Status
  writerSize : Nat
  writerVectorCount : Nat
  pushStatus : Status
deriving DecidableEq, Repr

/-- Observable external calls made during `SSMemSegment::Serialize`. -/
inductive SerializeEvent where
  | commitNewSegmentFile : SerializeEvent
  | writerSerialize : SerializeEvent
  | setSize : Nat → SerializeEvent
  | setRowCount : Nat → SerializeEvent
  | push : SerializeEvent
deriving DecidableEq, Repr

/-- `SSMemSegment::Serialize` (lines 213-243): commit the new segment file
(line 225; its status is immediately overwritten on line 228 without being
examined), physically serialize via the segment writer, and only when that
succeeds touch the segment-file handle (`seg_file->SetSize`,
`seg_file->SetRowCount` on lines 234-235) and push the transaction. When the
phase-one commit failed, `seg_file` is still null at line 234, so the
`SetSize` call dereferences the absent handle: a crash, modelled as result
`none`, occurring before `Push` and recording no further event. Returns the
resulting status (`none` = crash) together with the trace of external calls
completed. -/
def Serialize (env : SerializeEnv) : Option Status × List SerializeEvent :=
  let ev1 := [SerializeEvent.commitNewSegmentFile, SerializeEvent.writerSerialize]
  match env.writerSerializeStatus with
  | Status.error m => (some (Status.error m), ev1)
  | Status.ok =>
    match env.commitNewSegmentFileStatus with
    | Status.error _ => (none, ev1)
    | Status.ok =>
      (some env.pushStatus,
        ev1 ++ [SerializeEvent.setSize env.writerSize,
                SerializeEvent.setRowCount env.writerVectorCount,
                SerializeEvent.push])

/-- One caller-visible admission operation on the controller. -/
inductive Op where
  | addVectors : SSVectorSource → Op
  | addEntities : SSVectorSource → Op

/-- The record source carried by an operation. -/
def Op.source : Op → SSVectorSource
  | Op.addVectors src => src
  | Op.addEntities src => src

/-- Run one operation, keeping only the resulting state (`none` = crash). -/
def runOp (maxMem : Nat) (snap : Option Snapshot) (s : SSMemSegment) :
    Op → Option SSMemSegment
  | Op.addVectors src => (SSMemSegment.Add maxMem snap src s).map (fun r => r.2)
  | Op.addEntities src => (SSMemSegment.AddEntities maxMem snap src s).map (fun r => r.2)

/-- Run a sequence of admission operations from a given state. -/
def runOps (maxMem : Nat) (snap : Option Snapshot) :
    List Op → SSMemSegment → Option SSMemSegment
  | [], s => some s
  | op :: rest, s =>
    match runOp maxMem snap s op with
    | none => none
    | some s1 => runOps maxMem snap rest s1

/-- Precondition on a record source: it admits at most the requested count,
and one record of either granularity has positive size at any positive
dimension (a zero record size would make the quota computation in the
source a division by zero). -/
def WellFormedSource (src : SSVectorSource) : Prop :=
  (∀ n, src.pushCount n ≤ n) ∧
  (∀ d : Int, 0 < d → 0 < src.singleVectorSize d) ∧
  (∀ d : Int, 0 < d → 0 < src.singleEntitySize d)

/-- Arithmetic core of the ceiling preservation: admitting at most
`(maxMem - mem) / single` records of size `single` keeps the counter below
`maxMem`. -/
theorem mem_bound_aux (mem maxMem single a : Nat)
    (ha : a ≤ (maxMem - mem) / single) (hb : mem ≤ maxMem) :
    mem + a * single ≤ maxMem := by
  have h2 := Nat.div_mul_le_self (maxMem - mem) single
  have h3 := Nat.mul_le_mul_right single ha
  omega

/-- One `Add` call never decreases the memory counter and keeps it below the
ceiling. -/
theorem add_step_bounds (maxMem : Nat) (snap : Option Snapshot) (src : SSVectorSource)
    (s : SSMemSegment) (st : Status) (s2 : SSMemSegment)
    (hsrc : WellFormedSource src)
    (h : SSMemSegment.Add maxMem snap src s = some (st, s2)) :
    s.current_mem ≤ s2.current_mem ∧ (s.current_mem ≤ maxMem → s2.current_mem ≤ maxMem) := by
  simp only [SSMemSegment.Add, SSMemSegment.GetMemLeft] at h
  split at h
  · cases h
  · split at h
    · simp only [Option.some.injEq, Prod.mk.injEq] at h
      obtain ⟨-, hs⟩ := h
      subst hs
      exact ⟨Nat.le_refl _, fun hb => hb⟩
    · split at h
      · split at h
        · simp only [Option.some.injEq, Prod.mk.injEq] at h
          obtain ⟨-, hs⟩ := h
          subst hs
          exact ⟨Nat.le_add_right _ _,
            fun hb => mem_bound_aux s.current_mem maxMem _ _ (hsrc.1 _) hb⟩
        · simp only [Option.some.injEq, Prod.mk.injEq] at h
          obtain ⟨-, hs⟩ := h
          subst hs
          exact ⟨Nat.le_refl _, fun hb => hb⟩
      · simp only [Option.some.injEq, Prod.mk.injEq] at h
        obtain ⟨-, hs⟩ := h
        subst hs
        exact ⟨Nat.le_refl _, fun hb => hb⟩

/-- One `AddEntities` call never decreases the memory counter and keeps it
below the ceiling. -/
theorem addEntities_step_bounds (maxMem : Nat) (snap : Option Snapshot) (src : SSVectorSource)
    (s : SSMemSegment) (st : Status) (s2 : SSMemSegment)
    (hsrc : WellFormedSource src)
    (h : SSMemSegment.AddEntities maxMem snap src s = some (st, s2)) :
    s.current_mem ≤ s2.current_mem ∧ (s.current_mem ≤ maxMem → s2.current_mem ≤ maxMem) := by
  simp only [SSMemSegment.AddEntities, SSMemSegment.GetMemLeft] at h
  split at h
  · cases h
  · split at h
    · simp only [Option.some.injEq, Prod.mk.injEq] at h
      obtain ⟨-, hs⟩ := h
      subst hs
      exact ⟨Nat.le_refl _, fun hb => hb⟩
    · split at h
      · split at h
        · simp only [Option.some.injEq, Prod.mk.injEq] at h
          obtain ⟨-, hs⟩ := h
          subst hs
          exact ⟨Nat.le_add_right _ _,
            fun hb => mem_bound_aux s.current_mem maxMem _ _ (hsrc.1 _) hb⟩
        · simp only [Option.some.injEq, Prod.mk.injEq] at h
          obtain ⟨-, hs⟩ := h
          subst hs
          exact ⟨Nat.le_refl _, fun hb => hb⟩
      · simp only [Option.some.injEq, Prod.mk.injEq] at h
        obtain ⟨-, hs⟩ := h
        subst hs
        exact ⟨Nat.le_refl _, fun hb => hb⟩

/-- One admission operation never decreases the counter and preserves the
ceiling. -/
theorem runOp_bounds (maxMem : Nat) (snap : Option Snapshot) (op : Op)
    (s s2 : SSMemSegment) (hsrc : WellFormedSource op.source)
    (h : runOp maxMem snap s op = some s2) :
    s.current_mem ≤ s2.current_mem ∧ (s.current_mem ≤ maxMem → s2.current_mem ≤ maxMem) := by
  cases op with
  | addVectors src =>
    simp only [runOp, Option.map_eq_some'] at h
    obtain ⟨⟨st, s3⟩, hadd, hs⟩ := h
    subst hs
    exact add_step_bounds maxMem snap src s st s3 hsrc hadd
  | addEntities src =>
    simp only [runOp, Option.map_eq_some'] at h
    obtain ⟨⟨st, s3⟩, hadd, hs⟩ := h
    subst hs
    exact addEntities_step_bounds maxMem snap src s st s3 hsrc hadd

/-- Over a whole operation sequence the counter is monotone and stays below
the ceiling. -/
theorem runOps_bounds (maxMem : Nat) (snap : Option Snapshot) (ops : List Op)
    (hsrc : ∀ op ∈ ops, WellFormedSource op.source)
    (s s2 : SSMemSegment) (h : runOps maxMem snap ops s = some s2)
    (hb : s.current_mem ≤ maxMem) :
    s.current_mem ≤ s2.current_mem ∧ s2.current_mem ≤ maxMem := by
  induction ops generalizing s with
  | nil =>
    simp only [runOps, Option.some.injEq] at h
    subst h
    exact ⟨Nat.le_refl _, hb⟩
  | cons op rest ih =>
    simp only [runOps] at h
    rcases h1 : runOp maxMem snap s op with _ | s1 <;> rw [h1] at h
    · cases h
    · have hstep := runOp_bounds maxMem snap op s s1 (hsrc op (by simp)) h1
      have htail := ih (fun o ho => hsrc o (by simp [ho])) s1 h (hstep.2 hb)
      exact ⟨Nat.le_trans hstep.1 htail.1, htail.2⟩

/-- Running an appended sequence runs the two parts in order. -/
theorem runOps_append (maxMem : Nat) (snap : Option Snapshot) (l1 l2 : List Op)
    (s : SSMemSegment) :
    runOps maxMem snap (l1 ++ l2) s =
      match runOps maxMem snap l1 s with
      | none => none
      | some s1 => runOps maxMem snap l2 s1 := by
  induction l1 generalizing s with
  | nil => simp [runOps]
  | cons op rest ih =>
    simp only [List.cons_append, runOps]
    cases runOp maxMem snap s op <;> simp [ih]

/-- Concrete snapshot whose vector field has dimension 2 (witness data). -/
def snapDim2 : Option Snapshot := some ⟨[("vector", ⟨[("dimension", 2)]⟩)]⟩

/-- Concrete snapshot whose vector field has dimension 10 (witness data). -/
def snapDim10 : Option Snapshot := some ⟨[("vector", ⟨[("dimension", 10)]⟩)]⟩

/-- Concrete record source for witnesses: vector records of `4 * dim` bytes,
entity records of `4 * dim + 8` bytes, and a batch holding 3 records. -/
def wSrc : SSVectorSource :=
  SSVectorSource.ofBatch (fun d => d.toNat * 4) (fun d => d.toNat * 4 + 8) 3

/-- The witness source is well formed. -/
theorem wSrc_wellFormed : WellFormedSource wSrc := by
  refine ⟨fun n => Nat.min_le_left _ _, fun d hd => ?_, fun d hd => ?_⟩ <;>
    simp only [wSrc, SSVectorSource.ofBatch] <;> omega

/-- C1: for every sequence of Add/AddEntities calls on one buffer controller
(each record source admitting at most the requested count, with positive
record sizes), `current_mem` satisfies `0 ≤ current_mem ≤ maxMem` after
every call of the sequence and is monotonically non-decreasing: for any
split of the sequence, the intermediate state is bounded by the ceiling and
below the final state. -/
theorem add_sequence_memory_invariant (maxMem : Nat) (snap : Option Snapshot)
    (ops1 ops2 : List Op)
    (hsrc : ∀ op ∈ ops1 ++ ops2, WellFormedSource op.source)
    (s1 s2 : SSMemSegment)
    (h1 : runOps maxMem snap ops1 SSMemSegment.init = some s1)
    (h2 : runOps maxMem snap (ops1 ++ ops2) SSMemSegment.init = some s2) :
    0 ≤ s1.current_mem ∧ s1.current_mem ≤ maxMem ∧
      s1.current_mem ≤ s2.current_mem ∧ s2.current_mem ≤ maxMem := by
  have hsrc1 : ∀ op ∈ ops1, WellFormedSource op.source :=
    fun o ho => hsrc o (by simp [ho])
  have hsrc2 : ∀ op ∈ ops2, WellFormedSource op.source :=
    fun o ho => hsrc o (by simp [ho])
  have hb1 := runOps_bounds maxMem snap ops1 hsrc1 _ _ h1 (Nat.zero_le _)
  rw [runOps_append, h1] at h2
  have hb2 := runOps_bounds maxMem snap ops2 hsrc2 _ _ h2 hb1.2
  exact ⟨Nat.zero_le _, hb1.2, hb2.1, hb2.2⟩

/-- Witness for C1 at a concrete trace: one `Add` then one `AddEntities` on
a dimension-2 schema with ceiling 100 reaches memory 24 and then 72. -/
theorem add_sequence_memory_invariant_witness :
    0 ≤ (SSMemSegment.mk 24 []).current_mem ∧ (SSMemSegment.mk 24 []).current_mem ≤ 100 ∧
      (SSMemSegment.mk 24 []).current_mem ≤ (SSMemSegment.mk 72 []).current_mem ∧
      (SSMemSegment.mk 72 []).current_mem ≤ 100 :=
  add_sequence_memory_invariant 100 snapDim2 [Op.addVectors wSrc] [Op.addEntities wSrc]
    (by intro op hop
        simp only [List.mem_append, List.mem_singleton] at hop
        rcases hop with rfl | rfl <;> exact wSrc_wellFormed)
    ⟨24, []⟩ ⟨72, []⟩ (by rfl) (by rfl)

/-- C2: with a positive dimension and remaining capacity at least one record,
`Add` (resp. `AddEntities`) asks the source for exactly
`floor(remaining / single_record_size)` records; the canonical batch source
therefore admits `min quota batch` records — never more than the quota — and
the counter grows by exactly `admitted * single_record_size`. -/
theorem add_admission_quota (maxMem : Nat) (snap : Option Snapshot) (d : Int)
    (svs ses : Int → Nat) (batch : Nat) (s : SSMemSegment)
    (hdim : GetDimension snap = some d) (hd : 0 < d)
    (hmem : s.current_mem ≤ maxMem) :
    (0 < svs d → svs d ≤ maxMem - s.current_mem →
      SSMemSegment.Add maxMem snap (SSVectorSource.ofBatch svs ses batch) s =
        some (Status.ok,
          ⟨s.current_mem + min ((maxMem - s.current_mem) / svs d) batch * svs d, s.uids⟩) ∧
      min ((maxMem - s.current_mem) / svs d) batch ≤ (maxMem - s.current_mem) / svs d) ∧
    (0 < ses d → ses d ≤ maxMem - s.current_mem →
      SSMemSegment.AddEntities maxMem snap (SSVectorSource.ofBatch svs ses batch) s =
        some (Status.ok,
          ⟨s.current_mem + min ((maxMem - s.current_mem) / ses d) batch * ses d, s.uids⟩) ∧
      min ((maxMem - s.current_mem) / ses d) batch ≤ (maxMem - s.current_mem) / ses d) := by
  constructor
  · intro hpos hroom
    refine ⟨?_, Nat.min_le_left _ _⟩
    simp only [SSMemSegment.Add, SSMemSegment.GetMemLeft, hdim, SSVectorSource.ofBatch]
    rw [if_neg (by omega), if_pos hroom]
  · intro hpos hroom
    refine ⟨?_, Nat.min_le_left _ _⟩
    simp only [SSMemSegment.AddEntities, SSMemSegment.GetMemLeft, hdim, SSVectorSource.ofBatch]
    rw [if_neg (by omega), if_pos hroom]

/-- Witness for C2: ceiling 100, dimension 2, vector records of 8 bytes,
entity records of 16 bytes, batch of 3, starting from memory 0: quota 12
(resp. 6), admitted 3, growth to 24 (resp. 48), and 3 is at most the quota. -/
theorem add_admission_quota_witness :
    SSMemSegment.Add 100 snapDim2 wSrc SSMemSegment.init =
        some (Status.ok, ⟨24, []⟩) ∧ (3 : Nat) ≤ 12 ∧
    SSMemSegment.AddEntities 100 snapDim2 wSrc SSMemSegment.init =
        some (Status.ok, ⟨48, []⟩) ∧ (3 : Nat) ≤ 6 := by
  have h := add_admission_quota 100 snapDim2 2 (fun d => d.toNat * 4)
    (fun d => d.toNat * 4 + 8) 3 SSMemSegment.init (by rfl) (by decide) (Nat.zero_le _)
  have h1 := h.1 (by decide) (by decide)
  have h2 := h.2 (by decide) (by decide)
  exact ⟨h1.1, h1.2, h2.1, h2.2⟩

/-- Erasing the slot right after a kept block removes exactly the element at
that slot. -/
theorem eraseIdx_append_cons (K : List Int) (u : Int) (rest : List Int) :
    (K ++ u :: rest).eraseIdx K.length = K ++ rest := by
  induction K with
  | nil => rfl
  | cons a K ih => simp [List.eraseIdx_cons_succ, ih]

/-- Invariant of the batch-delete scan loop: when the live buffer consists of
the kept block `K` followed by the unscanned tail `rest`, and `deleted = d`
slots have been erased so far (so the scan index is `K.length + d`), the loop
ends with `K` followed by the tail filtered on non-membership in `temp`. -/
theorem deleteLoop_filter_aux (temp : List Int) (rest : List Int) :
    ∀ (K : List Int) (d : Nat),
      deleteLoop temp rest (K.length + d) d (K ++ rest) =
        K ++ rest.filter (fun u => !decide (u ∈ temp)) := by
  induction rest with
  | nil => intro K d; simp [deleteLoop]
  | cons u rest ih =>
    intro K d
    simp only [deleteLoop]
    by_cases hu : u ∈ temp
    · rw [if_pos hu, Nat.add_sub_cancel, eraseIdx_append_cons]
      have harith : K.length + d + 1 = K.length + (d + 1) := by omega
      rw [harith, ih K (d + 1)]
      simp [List.filter_cons, hu]
    · rw [if_neg hu]
      have harith : K.length + d + 1 = (K ++ [u]).length + d := by simp; omega
      have hbuf : K ++ u :: rest = (K ++ [u]) ++ rest := by simp
      rw [harith, hbuf, ih (K ++ [u]) d]
      simp [List.filter_cons, hu]

/-- The batch delete keeps exactly the buffered rows whose id is not in the
input list (duplicates among buffered rows all tested), in order. -/
theorem deleteBatch_uids (doc_ids : List Int) (s : SSMemSegment) :
    (SSMemSegment.DeleteBatch doc_ids s).2.uids =
      s.uids.filter (fun u => !decide (u ∈ doc_ids)) := by
  have h0 := deleteLoop_filter_aux (doc_ids.insertionSort (· ≤ ·)) s.uids [] 0
  simp only [List.length_nil, List.nil_append, Nat.add_zero] at h0
  simp only [SSMemSegment.DeleteBatch]
  rw [h0]
  apply List.filter_congr
  intro u hu
  have hperm : u ∈ doc_ids.insertionSort (· ≤ ·) ↔ u ∈ doc_ids :=
    (List.perm_insertionSort (· ≤ ·) doc_ids).mem_iff
  simp [hperm]

/-- C3: the batch delete removes exactly the buffered rows whose identifier
belongs to the input id list (every duplicate buffered row that matches is
removed), regardless of duplicates or ordering in the input (membership in
the sorted private copy equals membership in the input), and the surviving
rows keep their original relative order; on the spec example, buffer ids
[5, 2, 9, 2, 7] with delete list [2, 9] yield [5, 7]. -/
theorem delete_batch_removes_intersection (doc_ids : List Int) (s : SSMemSegment) :
    (SSMemSegment.DeleteBatch doc_ids s).2.uids =
      s.uids.filter (fun u => !decide (u ∈ doc_ids)) ∧
    (SSMemSegment.DeleteBatch [2, 9] ⟨0, [5, 2, 9, 2, 7]⟩).2.uids = [5, 7] :=
  ⟨deleteBatch_uids doc_ids s, by decide⟩

/-- C9: both Delete overloads return success unconditionally (absent ids are
not an error), never change the memory counter, and the batch overload sorts
only a private copy of the input, leaving the caller id vector of the call
frame unmodified. -/
theorem delete_ok_preserves_mem_and_input (doc_id : Int) (doc_ids : List Int)
    (s : SSMemSegment) (c : DeleteCallFrame) :
    (SSMemSegment.DeleteOne doc_id s).1 = Status.ok ∧
    (SSMemSegment.DeleteOne doc_id s).2.current_mem = s.current_mem ∧
    (SSMemSegment.DeleteBatch doc_ids s).1 = Status.ok ∧
    (SSMemSegment.DeleteBatch doc_ids s).2.current_mem = s.current_mem ∧
    (runDeleteBatch c).1 = Status.ok ∧
    (runDeleteBatch c).2.caller_ids = c.caller_ids := by
  refine ⟨?_, ?_, rfl, rfl, rfl, rfl⟩ <;>
    · simp only [SSMemSegment.DeleteOne]
      cases s.uids.findIdx? (fun u => decide (u = doc_id)) <;> simp

/-- C4 counterexample: with the snapshot unavailable, GetDimension returns
the sentinel 0, yet IsFull on an empty controller with ceiling 1000 returns
false, not true: the unsigned comparison GetMemLeft < 0 never holds, so the
claim that a dimension-lookup failure makes IsFull return true is false. -/
theorem isFull_dimension_failure_counterexample :
    GetDimension none = some 0 ∧
      ¬ SSMemSegment.IsFull 1000 none ⟨0, []⟩ = some true := by decide

/-- C4 amended: whenever GetDimension returns the sentinel 0, IsFull returns
false (one zero-sized record never exceeds the unsigned remaining capacity),
so the controller does not signal rotation through IsFull; unbounded growth
is instead prevented by Add/AddEntities failing on the non-positive
dimension. -/
theorem isFull_dimension_failure_returns_false (maxMem : Nat)
    (snap : Option Snapshot) (s : SSMemSegment)
    (hdim : GetDimension snap = some 0) :
    SSMemSegment.IsFull maxMem snap s = some false := by
  simp [SSMemSegment.IsFull, hdim, sizeT, FLOAT_TYPE_SIZE]

/-- Witness for the amended C4 at the concrete failure input: no snapshot,
ceiling 1000, fresh controller. -/
theorem isFull_dimension_failure_returns_false_witness :
    SSMemSegment.IsFull 1000 none ⟨0, []⟩ = some false :=
  isFull_dimension_failure_returns_false 1000 none ⟨0, []⟩ (by rfl)

/-- Concrete snapshot without a vector field (counterexample data). -/
def snapNoVector : Snapshot := ⟨[("age", ⟨[("dimension", 10)]⟩)]⟩

/-- Concrete snapshot whose vector field lacks a dimension parameter
(witness data). -/
def snapNoDim : Snapshot := ⟨[("vector", ⟨[("metric", 1)]⟩)]⟩

/-- C5 counterexample: on a snapshot that exists but lacks the vector field,
GetDimension does not return the sentinel 0: the code dereferences the
absent field handle (GetField result) without a null check, modelled as a
crash (none), so the claimed sentinel-without-raising behaviour fails. -/
theorem getDimension_missing_field_counterexample :
    GetDimension (some snapNoVector) = none ∧
      ¬ GetDimension (some snapNoVector) = some 0 := by decide

/-- C5 amended: when the snapshot exists and the vector field is present but
its parameter map lacks a dimension entry, GetDimension returns the sentinel
0 without raising, and consequently Add and AddEntities fail with the
invalid-schema error, perform no admission, and leave the state (including
current_mem) unchanged. -/
theorem missing_dimension_param_sentinel (maxMem : Nat) (ss : Snapshot)
    (f : Field) (src : SSVectorSource) (s : SSMemSegment)
    (hf : ss.GetField "vector" = some f)
    (hp : lookupParam f.params "dimension" = none) :
    GetDimension (some ss) = some 0 ∧
    SSMemSegment.Add maxMem (some ss) src s =
      some (Status.error "Not able to create collection file", s) ∧
    SSMemSegment.AddEntities maxMem (some ss) src s =
      some (Status.error "Not able to create collection file", s) := by
  have hdim : GetDimension (some ss) = some 0 := by
    simp [GetDimension, hf, hp]
  refine ⟨hdim, ?_, ?_⟩
  · simp [SSMemSegment.Add, hdim]
  · simp [SSMemSegment.AddEntities, hdim]

/-- Witness for the amended C5 on a concrete schema whose vector field has
no dimension parameter: the sentinel is returned and both admission calls
error out leaving the state untouched. -/
theorem missing_dimension_param_sentinel_witness :
    GetDimension (some snapNoDim) = some 0 ∧
    SSMemSegment.Add 100 (some snapNoDim) wSrc ⟨7, [1, 2]⟩ =
      some (Status.error "Not able to create collection file", ⟨7, [1, 2]⟩) ∧
    SSMemSegment.AddEntities 100 (some snapNoDim) wSrc ⟨7, [1, 2]⟩ =
      some (Status.error "Not able to create collection file", ⟨7, [1, 2]⟩) :=
  missing_dimension_param_sentinel 100 snapNoDim ⟨[("metric", 1)]⟩ wSrc ⟨7, [1, 2]⟩
    (by rfl) (by rfl)

/-- C6: whenever the segment writer physical serialization fails, Serialize
returns that failure and the second-phase Push on the lifecycle operation is
never invoked. -/
theorem serialize_writer_failure_no_push (env : SerializeEnv) (m : String)
    (hw : env.writerSerializeStatus = Status.error m) :
    (Serialize env).1 = some (Status.error m) ∧
      SerializeEvent.push ∉ (Serialize env).2 := by
  simp [Serialize, hw]

/-- Witness for C6: a concrete environment whose writer fails with a disk
error. -/
theorem serialize_writer_failure_no_push_witness :
    (Serialize ⟨Status.ok, Status.error "disk full", 0, 0, Status.ok⟩).1 =
        some (Status.error "disk full") ∧
      SerializeEvent.push ∉
        (Serialize ⟨Status.ok, Status.error "disk full", 0, 0, Status.ok⟩).2 :=
  serialize_writer_failure_no_push ⟨Status.ok, Status.error "disk full", 0, 0, Status.ok⟩
    "disk full" (by rfl)

/-- C7: with a positive dimension resolved from the snapshot (and the record
size representable in size_t), IsFull returns true exactly when the
remaining capacity maxMem - current_mem is smaller than one vector-sized
record, dimension * 4 bytes, at the current dimension. -/
theorem isFull_iff_remaining_lt_vector_record (maxMem : Nat)
    (snap : Option Snapshot) (d : Int) (s : SSMemSegment)
    (hdim : GetDimension snap = some d) (hd : 0 < d) (hcast : d * 4 < 2 ^ 64)
    (hmem : s.current_mem ≤ maxMem) :
    (SSMemSegment.IsFull maxMem snap s = some true ↔
      maxMem - s.current_mem < (d * 4).toNat) := by
  have hnn : (0 : Int) ≤ d * 4 := by omega
  have hcastEq : sizeT (d * FLOAT_TYPE_SIZE) = (d * 4).toNat := by
    simp only [sizeT, FLOAT_TYPE_SIZE]
    rw [Int.emod_eq_of_lt hnn hcast]
  simp [SSMemSegment.IsFull, hdim, hcastEq, SSMemSegment.GetMemLeft]

/-- Witness for C7 at the spec example: ceiling 1000, dimension 10 (vector
record 40 bytes), memory used 970: remaining 30 < 40, so IsFull is true. -/
theorem isFull_iff_remaining_lt_vector_record_witness :
    SSMemSegment.IsFull 1000 snapDim10 ⟨970, []⟩ = some true :=
  (isFull_iff_remaining_lt_vector_record 1000 snapDim10 10 ⟨970, []⟩
    (by rfl) (by decide) (by decide) (by decide)).mpr (by decide)

/-- C8: with a positive dimension, when the remaining capacity is smaller
than one record, Add (resp. AddEntities) admits nothing, returns success
rather than an error, and leaves the state (including current_mem)
unchanged. -/
theorem capacity_saturated_noop_success (maxMem : Nat) (snap : Option Snapshot)
    (d : Int) (src : SSVectorSource) (s : SSMemSegment)
    (hdim : GetDimension snap = some d) (hd : 0 < d)
    (hmem : s.current_mem ≤ maxMem) :
    (maxMem - s.current_mem < src.singleVectorSize d →
      SSMemSegment.Add maxMem snap src s = some (Status.ok, s)) ∧
    (maxMem - s.current_mem < src.singleEntitySize d →
      SSMemSegment.AddEntities maxMem snap src s = some (Status.ok, s)) := by
  constructor
  · intro hlt
    simp only [SSMemSegment.Add, SSMemSegment.GetMemLeft, hdim]
    rw [if_neg (by omega), if_neg (by omega)]
  · intro hlt
    simp only [SSMemSegment.AddEntities, SSMemSegment.GetMemLeft, hdim]
    rw [if_neg (by omega), if_neg (by omega)]

/-- Witness for C8: ceiling 30, dimension 10, vector records of 40 bytes and
entity records of 48 bytes at memory 0: remaining 30 is smaller than one
record, both calls are successful no-ops. -/
theorem capacity_saturated_noop_success_witness :
    SSMemSegment.Add 30 snapDim10 wSrc SSMemSegment.init =
        some (Status.ok, SSMemSegment.init) ∧
    SSMemSegment.AddEntities 30 snapDim10 wSrc SSMemSegment.init =
        some (Status.ok, SSMemSegment.init) := by
  have h := capacity_saturated_noop_success 30 snapDim10 10 wSrc SSMemSegment.init
    (by rfl) (by decide) (Nat.zero_le _)
  exact ⟨h.1 (by decide), h.2 (by decide)⟩

/-- C10 counterexample: in the execution where the phase-one commit failed
and the writer succeeds, Serialize crashes on the null segment-file handle
at SetSize (result none) and Push is never invoked — so a failed phase-one
commit does prevent the final Push, contrary to the claim. -/
theorem serialize_commit_failure_counterexample :
    (Serialize ⟨Status.error "phase one failed", Status.ok, 64, 3, Status.ok⟩).1 = none ∧
    SerializeEvent.push ∉
      (Serialize ⟨Status.error "phase one failed", Status.ok, 64, 3, Status.ok⟩).2 := by
  decide

/-- C10 amended: the status returned by the phase-one CommitNewSegmentFile
is never examined — it is overwritten by the writer serialization status,
so the physical write is attempted whatever the commit status was, and on
the writer-failure path the outcome is identical for any commit status. But
a failed phase-one commit leaves the segment-file handle null, so when the
writer then succeeds, Serialize dereferences the absent handle at SetSize
and crashes before the final Push: SetSize/SetRowCount complete and Push is
invoked (returning the push status) only when the phase-one commit
succeeded. -/
theorem serialize_commit_status_overwritten (c st p : Status) (m : String)
    (sz rc : Nat) :
    SerializeEvent.writerSerialize ∈ (Serialize (SerializeEnv.mk c Status.ok sz rc p)).2 ∧
    SerializeEvent.writerSerialize ∈
      (Serialize (SerializeEnv.mk c (Status.error m) sz rc p)).2 ∧
    Serialize (SerializeEnv.mk c (Status.error m) sz rc p) =
      Serialize (SerializeEnv.mk st (Status.error m) sz rc p) ∧
    (Serialize (SerializeEnv.mk Status.ok Status.ok sz rc p)).1 = some p ∧
    SerializeEvent.setSize sz ∈ (Serialize (SerializeEnv.mk Status.ok Status.ok sz rc p)).2 ∧
    SerializeEvent.setRowCount rc ∈
      (Serialize (SerializeEnv.mk Status.ok Status.ok sz rc p)).2 ∧
    SerializeEvent.push ∈ (Serialize (SerializeEnv.mk Status.ok Status.ok sz rc p)).2 ∧
    (Serialize (SerializeEnv.mk (Status.error m) Status.ok sz rc p)).1 = none ∧
    SerializeEvent.push ∉ (Serialize (SerializeEnv.mk (Status.error m) Status.ok sz rc p)).2 := by
  refine ⟨?_, by simp [Serialize], rfl, by simp [Serialize], by simp [Serialize],
    by simp [Serialize], by simp [Serialize], by simp [Serialize], by simp [Serialize]⟩
  cases c <;> simp [Serialize]

end Milvus
